import Mathlib

/-!
Shallow embedding of the Artion API block scanner (`internal/svc/blk_scanner.go`)
and of the token repository helpers (`internal/repository/token.go`), together
with theorems checking the specification's claims about them.

Modelling conventions:
* `uint64` values are `Nat`s together with explicit reduction modulo `2 ^ 64`
  at the operations where Go wraps (`bs.current += 1`, `bs.target - bs.current`).
* A Go call returning `(uint64, error)` is modelled by `Option Nat`
  (`none` models a call that returned a non-nil error).
* The scanner's run loop interacts with its environment through channels and
  timers; one loop iteration is driven by an `IterEnv` record containing the
  branch the loop-top `select` takes and the outcomes of the fallible calls and
  channel races inside `scanNext`.  A run is a list of such records.
* The single-slot `sigStop` channel is modelled by the `stopArmed` field: it is
  `true` exactly when the channel holds a value.
-/

namespace Svc

/-- The `u64Mod` constant is `2 ^ 64`, the modulus of Go's `uint64` arithmetic. -/
def u64Mod : Nat := 2 ^ 64

/-- Source constant `defStartingBlockNumber`: first block scanned when the
previous state is unknown. -/
def defStartingBlockNumber : Nat := 16000000

/-- Source constant `blkScannerHysteresis`: the number of blocks we let slide
until we switch back to the active scan state. -/
def blkScannerHysteresis : Nat := 10

/-- Go computes `a - b` on `uint64`; `u64sub a b` is that wrapping subtraction
on `Nat` (inputs reduced mod `2 ^ 64` so the function is total). -/
def u64sub (a b : Nat) : Nat := (a % u64Mod + u64Mod - b % u64Mod) % u64Mod

/-- The scanner state constants `blkIsScanning` / `blkIsIdling`
(`iota` values 0 and 1 in the source; `state` only ever holds these two). -/
inductive ScannerState where
  | blkIsScanning
  | blkIsIdling
deriving DecidableEq

/-- The mutable fields of `blkScanner` that the claims are about: `state`,
`current`, `target`, plus `stopArmed`, which models whether the single-slot
`sigStop` channel currently holds a value. -/
structure BlkScanner where
  state : ScannerState
  current : Nat
  target : Nat
  stopArmed : Bool
deriving DecidableEq

/-- Source function `top`: the result of `CurrentHead()`; on error
(`head = none`) it logs critically and returns 0. -/
def top (head : Option Nat) : Nat :=
  match head with
  | none => 0
  | some cur => cur

/-- Source function `start`: the result of `LastSeenBlockNumber()`; on error
it returns 0, on a zero result it returns `defStartingBlockNumber`,
otherwise the stored value. -/
def start (lnb : Option Nat) : Nat :=
  match lnb with
  | none => 0
  | some n => if n = 0 then defStartingBlockNumber else n

/-- Source function `init` combined with `newBlkScanner`: `current := start()`,
`target := top()`, state starts as `blkIsScanning` (zero value), and the
`sigStop` channel is empty.  Note `newBlkScanner` never initialises the
`inObservedBlocks` channel, so in the program that channel is nil. -/
def initScanner (lnb head : Option Nat) : BlkScanner :=
  { state := .blkIsScanning, current := start lnb, target := top head,
    stopArmed := false }

/-- The branch taken by the non-blocking `select` at the top of `run`'s loop.
`tickTarget` carries the `CurrentHead()` result used by `top`; `observed`
carries the height read from `inObservedBlocks`. -/
inductive LoopBranch where
  | stopSig
  | tickTarget (head : Option Nat)
  | logTick
  | observed (bid : Nat)
  | fallThrough
deriving DecidableEq

/-- Environment of one `scanNext` call: whether `PullHeader(bs.current)`
succeeds, whether a stop signal arrives during the 5-second wait after a
failure, and whether the stop signal wins the race against the enqueue of the
fetched header. -/
structure ScanEnv where
  fetchOk : Bool
  stopInWait : Bool
  stopInSend : Bool
deriving DecidableEq

/-- Environment of one full loop iteration: the loop-top branch, the
`scanNext` environment, and the `CurrentHead()` result `checkTarget` would
obtain if it re-fetches the target. -/
structure IterEnv where
  branch : LoopBranch
  scan : ScanEnv
  retop : Option Nat
deriving DecidableEq

/-- Effect of the loop-top `select` branches of `run` other than termination:
the 2-second ticker refreshes `target`, the log ticker only logs, and an
observed block id fast-forwards `current` exactly when the scanner is idling
and the id exceeds `current`. -/
def handleBranch (bs : BlkScanner) (b : LoopBranch) : BlkScanner :=
  match b with
  | .stopSig => bs
  | .tickTarget head => { bs with target := top head }
  | .logTick => bs
  | .observed bid =>
      if bs.state = .blkIsIdling ∧ bs.current < bid then
        { bs with current := bid }
      else bs
  | .fallThrough => bs

/-- Source function `scanNext`: when scanning below target, pull the header at
`current`.  On failure, wait (re-arming the stop signal if it arrives) and
return unchanged.  On success, race the enqueue on `outBlocks` against the
stop signal: an enqueue emits the header for height `current` and increments
`current` (wrapping, as Go's `+= 1` does); a stop re-arms the signal.  The
second component is the height of the emitted header, if any. -/
def scanNext (bs : BlkScanner) (e : ScanEnv) : BlkScanner × Option Nat :=
  if bs.state = .blkIsScanning ∧ bs.current < bs.target then
    if e.fetchOk then
      if e.stopInSend then ({ bs with stopArmed := true }, none)
      else ({ bs with current := (bs.current + 1) % u64Mod }, some bs.current)
    else if e.stopInWait then ({ bs with stopArmed := true }, none)
    else (bs, none)
  else (bs, none)

/-- Source function `checkTarget`: only when scanning with `current > target`,
re-fetch `target := top()` and compute `diff := target - current` in `uint64`
arithmetic; if `diff >= 0 && diff < blkScannerHysteresis`, switch to idling
(the state-change notification is best-effort and not modelled). -/
def checkTarget (bs : BlkScanner) (retop : Option Nat) : BlkScanner :=
  if bs.state = .blkIsScanning ∧ bs.target < bs.current then
    let t := top retop
    let diff := u64sub t bs.current
    if 0 ≤ diff ∧ diff < blkScannerHysteresis then
      { bs with target := t, state := .blkIsIdling }
    else { bs with target := t }
  else bs

/-- Source function `checkIdle`: only when idling, compute
`diff := target - current` in `uint64` arithmetic and switch back to scanning
when `diff > blkScannerHysteresis`. -/
def checkIdle (bs : BlkScanner) : BlkScanner :=
  if bs.state ≠ .blkIsIdling then bs
  else if blkScannerHysteresis < u64sub bs.target bs.current then
    { bs with state := .blkIsScanning }
  else bs

/-- One non-terminating iteration of `run`'s loop: handle the selected branch,
then `scanNext`, `checkTarget`, `checkIdle`.  Returns the new scanner state
and the height emitted in this iteration, if any. -/
def iterStep (bs : BlkScanner) (e : IterEnv) : BlkScanner × Option Nat :=
  let bs1 := handleBranch bs e.branch
  let p := scanNext bs1 e.scan
  (checkIdle (checkTarget p.1 e.retop), p.2)

/-- Result of running the loop on a list of iteration environments: the
heights emitted on `outBlocks` in order, the number of times the deferred
`bs.mgr.closed(bs)` callback ran, the final scanner state, and whether the
loop returned (took the `sigStop` branch). -/
structure RunResult where
  emitted : List Nat
  closedCalls : Nat
  finalState : BlkScanner
  terminated : Bool
deriving DecidableEq

/-- The loop of `run`: it returns only through the `sigStop` branch of the
loop-top `select` (consuming the signal), at which point the deferred closure
callback runs once; otherwise each iteration is `iterStep`.  An exhausted
environment list models a run still in progress. -/
def runLoop (bs : BlkScanner) : List IterEnv → RunResult
  | [] => { emitted := [], closedCalls := 0, finalState := bs, terminated := false }
  | e :: es =>
    if e.branch = .stopSig then
      { emitted := [], closedCalls := 1,
        finalState := { bs with stopArmed := false }, terminated := true }
    else
      let p := iterStep bs e
      let r := runLoop p.1 es
      { emitted := p.2.toList ++ r.emitted, closedCalls := r.closedCalls,
        finalState := r.finalState, terminated := r.terminated }

/-- Well-formedness of a loop branch: every `uint64` carried by the
environment is below `2 ^ 64`. -/
def wfBranch (b : LoopBranch) : Bool :=
  match b with
  | .tickTarget head => decide (top head < u64Mod)
  | .observed bid => decide (bid < u64Mod)
  | _ => true

/-- Well-formedness of an iteration environment. -/
def wfEnv (e : IterEnv) : Bool :=
  wfBranch e.branch && decide (top e.retop < u64Mod)

/-- Well-formedness of a scanner state: `current` and `target` are `uint64`
values. -/
def wfScanner (bs : BlkScanner) : Bool :=
  decide (bs.current < u64Mod) && decide (bs.target < u64Mod)

/-- Predicate on an iteration environment used for the constant-head scenario:
the loop-top branch is the target ticker reporting head `t`, the log ticker or
the default fall-through, and a `checkTarget` re-fetch would also report `t`. -/
def constHeadEnv (t : Nat) (e : IterEnv) : Bool :=
  (decide (e.branch = .tickTarget (some t)) || decide (e.branch = .logTick) ||
    decide (e.branch = .fallThrough)) && decide (e.retop = some t)

/-- Whether a loop branch is a delivery on the `inObservedBlocks` channel.
In the program as constructed this never happens: `newBlkScanner` leaves
`inObservedBlocks` nil, and a receive on a nil channel never fires. -/
def isObserved (b : LoopBranch) : Bool :=
  match b with
  | .observed _ => true
  | _ => false

end Svc

namespace Repo

/-- The fields of `types.Token` read by the functions under verification
(only `Name` is consulted by `MustTokenName`). -/
structure Token where
  Name : String
deriving DecidableEq

namespace Proxy

/-- Source method `Proxy.Token` (`internal/repository/token.go`): `dbRes`
models the outcome of `p.db.GetToken` — `.error e` a failed read, `.ok none`
Go's `(nil, nil)` for a token absent from the database, `.ok (some t)` a found
token.  The method forwards the database error, logs and returns `(nil, nil)`
when the token is not found, and otherwise returns the token; the
`callGroup.Do` de-duplication wrapper does not change the returned value. -/
def Token (dbRes : Except String (Option Repo.Token)) :
    Except String (Option Repo.Token) :=
  match dbRes with
  | .error e => .error e
  | .ok none => .ok none
  | .ok (some t) => .ok (some t)

/-- Source method `Proxy.MustTokenName`: on a lookup error it returns the
token-id string; otherwise it reads `t.Name` from the returned pointer and
returns the token-id string when the name is empty, the name otherwise.  When
`Proxy.Token` returns Go's `(nil, nil)` the read `t.Name` dereferences a nil
pointer and panics, so no string is returned: that outcome is modelled as
`none`, every normally returned string as `some`. -/
def MustTokenName (dbRes : Except String (Option Repo.Token))
    (tokenIDStr : String) : Option String :=
  match Proxy.Token dbRes with
  | .error _ => some tokenIDStr
  | .ok none => none
  | .ok (some t) => some (if t.Name = "" then tokenIDStr else t.Name)

end Proxy

end Repo

/-!
Helper lemmas about the scanner's step functions, shared by the claim
theorems below.
-/

namespace Svc

/-- The loop-top branches other than an observed block applied to an idling
scanner leave `current`, `state` and the stop slot unchanged. -/
theorem handleBranch_stable (bs : BlkScanner) (b : LoopBranch)
    (h : (∀ bid, b ≠ .observed bid) ∨ bs.state = .blkIsScanning) :
    (handleBranch bs b).current = bs.current ∧
    (handleBranch bs b).state = bs.state ∧
    (handleBranch bs b).stopArmed = bs.stopArmed := by
  cases b <;> simp [handleBranch]
  case observed bid =>
    rcases h with h | h
    · exact absurd rfl (h bid)
    · simp [h]

/-- Branch handling keeps the scanner well formed when the environment is. -/
theorem wfScanner_handleBranch (bs : BlkScanner) (b : LoopBranch)
    (hb : wfBranch b = true) (hbs : wfScanner bs = true) :
    wfScanner (handleBranch bs b) = true := by
  cases b <;>
    simp only [handleBranch, wfBranch, wfScanner, Bool.and_eq_true,
      decide_eq_true_eq] at hb hbs ⊢ <;>
    try exact hbs
  case tickTarget head => exact ⟨hbs.1, hb⟩
  case observed bid =>
    split
    · exact ⟨hb, hbs.2⟩
    · exact hbs

/-- The advance step either emits nothing and leaves the scanner fields
unchanged (apart from a possible stop re-arm) or emits the header for height
`current` and increments `current` by exactly one. -/
theorem scanNext_cases (bs : BlkScanner) (e : ScanEnv)
    (hbs : wfScanner bs = true) :
    ((scanNext bs e).1.current = bs.current ∧
      (scanNext bs e).1.target = bs.target ∧
      (scanNext bs e).1.state = bs.state ∧ (scanNext bs e).2 = none) ∨
    ((scanNext bs e).1.current = bs.current + 1 ∧
      (scanNext bs e).1.target = bs.target ∧
      (scanNext bs e).1.state = bs.state ∧
      (scanNext bs e).2 = some bs.current ∧ bs.current < bs.target) := by
  simp only [wfScanner, Bool.and_eq_true, decide_eq_true_eq] at hbs
  unfold scanNext
  split
  · next hg =>
    split
    · split
      · left; simp
      · right
        refine ⟨?_, by simp, by simp, by simp, hg.2⟩
        simp only
        exact Nat.mod_eq_of_lt (by omega)
    · split
      · left; simp
      · left; simp
  · left; simp

/-- The target-reached check never touches `current` or the stop slot. -/
theorem checkTarget_stable (bs : BlkScanner) (retop : Option Nat) :
    (checkTarget bs retop).current = bs.current ∧
    (checkTarget bs retop).stopArmed = bs.stopArmed := by
  unfold checkTarget
  split
  · dsimp only
    split <;> simp
  · simp

/-- The idle check only ever changes `state`. -/
theorem checkIdle_stable (bs : BlkScanner) :
    (checkIdle bs).current = bs.current ∧ (checkIdle bs).target = bs.target ∧
    (checkIdle bs).stopArmed = bs.stopArmed := by
  unfold checkIdle
  split
  · simp
  · split <;> simp

/-- The target-reached check keeps the scanner well formed when the re-fetched
head is a `uint64`. -/
theorem wfScanner_checkTarget (bs : BlkScanner) (retop : Option Nat)
    (hr : top retop < u64Mod) (hbs : wfScanner bs = true) :
    wfScanner (checkTarget bs retop) = true := by
  simp only [wfScanner, Bool.and_eq_true, decide_eq_true_eq] at hbs ⊢
  unfold checkTarget
  split
  · dsimp only
    split <;> exact ⟨hbs.1, hr⟩
  · exact hbs

/-- The idle check keeps the scanner well formed. -/
theorem wfScanner_checkIdle (bs : BlkScanner) (hbs : wfScanner bs = true) :
    wfScanner (checkIdle bs) = true := by
  simp only [wfScanner, Bool.and_eq_true, decide_eq_true_eq] at hbs ⊢
  unfold checkIdle
  split
  · exact hbs
  · split <;> exact hbs

end Svc

namespace Svc

/-- One loop iteration whose branch is not an effective observed-block
fast-forward keeps the scanner well formed and either emits nothing with
`current` unchanged or emits the header for `current` and increments it. -/
theorem iterStep_cases (bs : BlkScanner) (e : IterEnv)
    (h : (∀ bid, e.branch ≠ .observed bid) ∨ bs.state = .blkIsScanning)
    (he : wfEnv e = true) (hbs : wfScanner bs = true) :
    wfScanner (iterStep bs e).1 = true ∧
    (((iterStep bs e).1.current = bs.current ∧ (iterStep bs e).2 = none) ∨
     ((iterStep bs e).1.current = bs.current + 1 ∧
       (iterStep bs e).2 = some bs.current)) := by
  simp only [wfEnv, Bool.and_eq_true, decide_eq_true_eq] at he
  have hb1 := handleBranch_stable bs e.branch h
  have hwf1 := wfScanner_handleBranch bs e.branch he.1 hbs
  have hsc := scanNext_cases (handleBranch bs e.branch) e.scan hwf1
  have hct := checkTarget_stable (scanNext (handleBranch bs e.branch) e.scan).1 e.retop
  have hci := checkIdle_stable (checkTarget (scanNext (handleBranch bs e.branch) e.scan).1 e.retop)
  have hwf2 : wfScanner (scanNext (handleBranch bs e.branch) e.scan).1 = true := by
    rcases hsc with ⟨hc, ht, _, _⟩ | ⟨hc, ht, _, _, hlt⟩ <;>
      simp only [wfScanner, Bool.and_eq_true, decide_eq_true_eq] at hwf1 ⊢ <;>
      rw [hc, ht] <;> exact ⟨by omega, hwf1.2⟩
  have hwf3 := wfScanner_checkIdle _ (wfScanner_checkTarget _ e.retop he.2 hwf2)
  refine ⟨hwf3, ?_⟩
  rcases hsc with ⟨hc, _, _, hemit⟩ | ⟨hc, _, _, hemit, _⟩
  · left
    constructor
    · show (checkIdle (checkTarget _ e.retop)).current = bs.current
      rw [hci.1, hct.1, hc, hb1.1]
    · exact hemit
  · right
    constructor
    · show (checkIdle (checkTarget _ e.retop)).current = bs.current + 1
      rw [hci.1, hct.1, hc, hb1.1]
    · show (scanNext (handleBranch bs e.branch) e.scan).2 = some bs.current
      rw [hemit, hb1.1]

/-- In a run without observed-block deliveries the emitted heights are the
consecutive block numbers starting at the initial cursor, and the final cursor
has advanced by exactly the number of emitted headers. -/
theorem runLoop_range (bs : BlkScanner) (es : List IterEnv)
    (hob : ∀ e ∈ es, ∀ bid, e.branch ≠ .observed bid)
    (hwf : ∀ e ∈ es, wfEnv e = true)
    (hbs : wfScanner bs = true) :
    (runLoop bs es).emitted
      = List.range' bs.current (runLoop bs es).emitted.length ∧
    (runLoop bs es).finalState.current
      = bs.current + (runLoop bs es).emitted.length := by
  induction es generalizing bs with
  | nil => simp [runLoop]
  | cons e es ih =>
    by_cases hstop : e.branch = .stopSig
    · simp [runLoop, hstop]
    · have hcases := iterStep_cases bs e
        (Or.inl (hob e (List.mem_cons_self e es)))
        (hwf e (List.mem_cons_self e es)) hbs
      have ih' := ih (iterStep bs e).1
        (fun x hx => hob x (List.mem_cons_of_mem e hx))
        (fun x hx => hwf x (List.mem_cons_of_mem e hx)) hcases.1
      rcases hcases.2 with ⟨hc, hemit⟩ | ⟨hc, hemit⟩
      · rw [hc] at ih'
        simp only [runLoop, if_neg hstop, hemit, Option.toList_none,
          List.nil_append]
        exact ih'
      · rw [hc] at ih'
        simp only [runLoop, if_neg hstop, hemit, Option.toList_some,
          List.singleton_append, List.length_cons]
        constructor
        · rw [List.range'_succ]
          exact congrArg (bs.current :: ·) ih'.1
        · rw [ih'.2]
          omega

end Svc

namespace Svc

/-- Unsigned 64-bit subtraction computes the ordinary difference when the
subtrahend does not exceed the minuend. -/
theorem u64sub_of_le (a b : Nat) (hb : b ≤ a) (ha : a < u64Mod) :
    u64sub a b = a - b := by
  have h1 : a % u64Mod = a := Nat.mod_eq_of_lt ha
  have h2 : b % u64Mod = b := Nat.mod_eq_of_lt (lt_of_le_of_lt hb ha)
  unfold u64sub
  rw [h1, h2]
  have h3 : a + u64Mod - b = (a - b) + u64Mod := by omega
  rw [h3, Nat.add_mod_right]
  exact Nat.mod_eq_of_lt (by omega)

/-- Unsigned 64-bit subtraction wraps to `2 ^ 64 - (b - a)` when the
subtrahend exceeds the minuend. -/
theorem u64sub_of_lt (a b : Nat) (hab : a < b) (hb : b < u64Mod) :
    u64sub a b = u64Mod - (b - a) := by
  have hM : 0 < u64Mod := by norm_num [u64Mod]
  have h1 : a % u64Mod = a := Nat.mod_eq_of_lt (lt_trans hab hb)
  have h2 : b % u64Mod = b := Nat.mod_eq_of_lt hb
  unfold u64sub
  rw [h1, h2]
  have h3 : a + u64Mod - b = u64Mod - (b - a) := by omega
  rw [h3]
  exact Nat.mod_eq_of_lt (by omega)

/-- Splitting a run at a point where it has not yet terminated: the remaining
iterations continue from the intermediate scanner state and the emitted
sequences concatenate. -/
theorem runLoop_append (bs : BlkScanner) (as es : List IterEnv) :
    runLoop bs (as ++ es) =
      if (runLoop bs as).terminated then runLoop bs as
      else
        { emitted := (runLoop bs as).emitted
            ++ (runLoop (runLoop bs as).finalState es).emitted,
          closedCalls := (runLoop (runLoop bs as).finalState es).closedCalls,
          finalState := (runLoop (runLoop bs as).finalState es).finalState,
          terminated := (runLoop (runLoop bs as).finalState es).terminated } := by
  induction as generalizing bs with
  | nil => simp [runLoop]
  | cons a as ih =>
    by_cases hstop : a.branch = .stopSig
    · simp [runLoop, hstop]
    · simp only [List.cons_append, runLoop, if_neg hstop, List.append_eq]
      rw [ih (iterStep bs a).1]
      by_cases ht : (runLoop (iterStep bs a).1 as).terminated
      · simp [ht]
      · simp [ht]

/-- A scanner that is scanning with `current = target` is a fixed point of the
loop as long as every iteration reports the same chain head `t`: nothing is
emitted and no state change happens. -/
theorem runLoop_steady (t : Nat) (a : Bool) (es : List IterEnv)
    (h : ∀ e ∈ es, constHeadEnv t e = true) :
    runLoop ⟨.blkIsScanning, t, t, a⟩ es =
      { emitted := [], closedCalls := 0,
        finalState := ⟨.blkIsScanning, t, t, a⟩, terminated := false } := by
  induction es with
  | nil => rfl
  | cons e es ih =>
    have he := h e (List.mem_cons_self e es)
    simp only [constHeadEnv, Bool.and_eq_true, Bool.or_eq_true,
      decide_eq_true_eq] at he
    have hstep : iterStep ⟨.blkIsScanning, t, t, a⟩ e
        = (⟨.blkIsScanning, t, t, a⟩, none) := by
      rcases he with ⟨(hb | hb) | hb, hr⟩ <;>
        simp [iterStep, handleBranch, hb, hr, scanNext, checkTarget, checkIdle, top]
    have hnstop : e.branch ≠ .stopSig := by
      rcases he with ⟨(hb | hb) | hb, _⟩ <;> rw [hb] <;> simp
    simp only [runLoop, if_neg hnstop, hstep]
    rw [ih (fun x hx => h x (List.mem_cons_of_mem e hx))]
    rfl

end Svc

/-!
Claim theorems.
-/

namespace Svc

/-- Claim C1: for every run of the scanner in which every `PullHeader` call
succeeds, the emitted header heights are exactly the consecutive heights
starting at the checkpoint resolved by `start` at initialization — strictly
increasing, no gaps, first emitted height equal to the resolved checkpoint
(`List.range' c n` is the list `c, c+1, ..., c+n-1`).  A run of this program
never delivers an observed-block height (`newBlkScanner` leaves
`inObservedBlocks` nil), which the `hob` hypothesis encodes; the conclusion in
fact holds whether or not the fetches succeed, so the `hfetch` hypothesis of
the claim is carried but not needed. -/
theorem emitted_heights_consecutive (lnb head : Option Nat) (es : List IterEnv)
    (hob : ∀ e ∈ es, isObserved e.branch = false)
    (hfetch : ∀ e ∈ es, e.scan.fetchOk = true)
    (hwf : ∀ e ∈ es, wfEnv e = true)
    (hl : start lnb < u64Mod) (hh : top head < u64Mod) :
    (runLoop (initScanner lnb head) es).emitted
      = List.range' (start lnb)
          (runLoop (initScanner lnb head) es).emitted.length := by
  have hob' : ∀ e ∈ es, ∀ bid, e.branch ≠ .observed bid := by
    intro e he bid hcontra
    have hx := hob e he
    rw [hcontra] at hx
    simp [isObserved] at hx
  have hbs : wfScanner (initScanner lnb head) = true := by
    simp [wfScanner, initScanner, hl, hh]
  exact (runLoop_range (initScanner lnb head) es hob' hwf hbs).1

/-- Witness for C1: checkpoint 5, head 8, three plain iterations with
successful fetches; the emitted heights are `[5, 6, 7] = List.range' 5 3`. -/
theorem emitted_heights_consecutive_witness :
    (runLoop (initScanner (some 5) (some 8))
        (List.replicate 3 ⟨.fallThrough, ⟨true, false, false⟩, some 8⟩)).emitted
      = List.range' (start (some 5))
          (runLoop (initScanner (some 5) (some 8))
            (List.replicate 3
              ⟨.fallThrough, ⟨true, false, false⟩, some 8⟩)).emitted.length :=
  emitted_heights_consecutive (some 5) (some 8)
    (List.replicate 3 ⟨.fallThrough, ⟨true, false, false⟩, some 8⟩)
    (by decide) (by decide) (by decide) (by decide) (by decide)

/-- Claim C4: the observed-block handler in `run` sets `current` to the
received height exactly when the scanner is idling and the height exceeds
`current`; otherwise (height not above `current`, or scanner scanning) the
signal is a complete no-op. -/
theorem observed_signal_guard (bs : BlkScanner) (bid : Nat) :
    (bs.state = .blkIsIdling → bs.current < bid →
      handleBranch bs (.observed bid) = { bs with current := bid }) ∧
    (bs.state = .blkIsIdling → bid ≤ bs.current →
      handleBranch bs (.observed bid) = bs) ∧
    (bs.state = .blkIsScanning → handleBranch bs (.observed bid) = bs) := by
  refine ⟨fun h1 h2 => ?_, fun h1 h2 => ?_, fun h1 => ?_⟩
  · simp [handleBranch, h1, h2]
  · simp [handleBranch, h1, Nat.not_lt.mpr h2]
  · simp [handleBranch, h1]

/-- Witness for C4: an idling scanner at height 7 fast-forwards to an observed
height 9, ignores an observed height 5, and a scanning scanner ignores both. -/
theorem observed_signal_guard_witness :
    handleBranch ⟨.blkIsIdling, 7, 7, false⟩ (.observed 9)
      = ⟨.blkIsIdling, 9, 7, false⟩ ∧
    handleBranch ⟨.blkIsIdling, 7, 7, false⟩ (.observed 5)
      = ⟨.blkIsIdling, 7, 7, false⟩ ∧
    handleBranch ⟨.blkIsScanning, 7, 7, false⟩ (.observed 9)
      = ⟨.blkIsScanning, 7, 7, false⟩ :=
  ⟨(observed_signal_guard ⟨.blkIsIdling, 7, 7, false⟩ 9).1 rfl (by decide),
   (observed_signal_guard ⟨.blkIsIdling, 7, 7, false⟩ 5).2.1 rfl (by decide),
   (observed_signal_guard ⟨.blkIsScanning, 7, 7, false⟩ 9).2.2 rfl⟩

/-- Claim C8: any loop step taken while the scanner is scanning never
decreases `current`: either nothing is emitted and `current` is unchanged, or
the header for `current` is emitted and `current` grows by exactly one. -/
theorem current_monotone_scanning (bs : BlkScanner) (e : IterEnv)
    (hs : bs.state = .blkIsScanning)
    (he : wfEnv e = true) (hbs : wfScanner bs = true) :
    ((iterStep bs e).1.current = bs.current ∧ (iterStep bs e).2 = none) ∨
    ((iterStep bs e).1.current = bs.current + 1 ∧
      (iterStep bs e).2 = some bs.current) :=
  (iterStep_cases bs e (Or.inr hs) he hbs).2

/-- Witness for C8: a scanning step at height 4 with target 6 emits height 4
and advances `current` to 5. -/
theorem current_monotone_scanning_witness :
    ((iterStep ⟨.blkIsScanning, 4, 6, false⟩
        ⟨.fallThrough, ⟨true, false, false⟩, some 6⟩).1.current = 4 ∧
      (iterStep ⟨.blkIsScanning, 4, 6, false⟩
        ⟨.fallThrough, ⟨true, false, false⟩, some 6⟩).2 = none) ∨
    ((iterStep ⟨.blkIsScanning, 4, 6, false⟩
        ⟨.fallThrough, ⟨true, false, false⟩, some 6⟩).1.current = 4 + 1 ∧
      (iterStep ⟨.blkIsScanning, 4, 6, false⟩
        ⟨.fallThrough, ⟨true, false, false⟩, some 6⟩).2 = some 4) :=
  current_monotone_scanning ⟨.blkIsScanning, 4, 6, false⟩
    ⟨.fallThrough, ⟨true, false, false⟩, some 6⟩ rfl (by decide) (by decide)

end Svc

namespace Svc

/-- Claim C5: the starting height resolves to 0 when `LastSeenBlockNumber`
errors, to the fixed default 16,000,000 when it returns 0 (and that default is
then the first emitted height), and to the returned value otherwise; the
target resolves to 0 when `CurrentHead` errors at initialization. -/
theorem start_height_resolution :
    start none = 0 ∧
    (start (some 0) = defStartingBlockNumber ∧ defStartingBlockNumber = 16000000) ∧
    (∀ n, n ≠ 0 → start (some n) = n) ∧
    (∀ lnb, (initScanner lnb none).target = 0) ∧
    (∀ head es,
      (∀ e ∈ es, isObserved e.branch = false) →
      (∀ e ∈ es, wfEnv e = true) →
      top head < u64Mod →
      (runLoop (initScanner (some 0) head) es).emitted ≠ [] →
      (runLoop (initScanner (some 0) head) es).emitted.head?
        = some defStartingBlockNumber) := by
  refine ⟨rfl, ⟨rfl, rfl⟩, fun n hn => by simp [start, hn], fun lnb => rfl,
    fun head es hob hwf hh hne => ?_⟩
  have hob' : ∀ e ∈ es, ∀ bid, e.branch ≠ .observed bid := by
    intro e he bid hcontra
    have hx := hob e he
    rw [hcontra] at hx
    simp [isObserved] at hx
  have hbs : wfScanner (initScanner (some 0) head) = true := by
    simp only [wfScanner, initScanner, Bool.and_eq_true, decide_eq_true_eq]
    exact ⟨by norm_num [start, defStartingBlockNumber, u64Mod], hh⟩
  have hr := (runLoop_range (initScanner (some 0) head) es hob' hwf hbs).1
  rcases hlen : (runLoop (initScanner (some 0) head) es).emitted.length with _ | n
  · exact absurd (List.length_eq_zero.mp hlen) hne
  · rw [hlen] at hr
    rw [hr, List.range'_succ]
    rfl

/-- Witness for C5: a stored nonzero checkpoint resolves to itself, and with
a stored checkpoint of 0 and head 16,000,002, one successful iteration emits
16,000,000 first. -/
theorem start_height_resolution_witness :
    start (some 7) = 7 ∧
    (runLoop (initScanner (some 0) (some 16000002))
        [⟨.fallThrough, ⟨true, false, false⟩, some 16000002⟩]).emitted.head?
      = some defStartingBlockNumber :=
  ⟨start_height_resolution.2.2.1 7 (by decide),
   start_height_resolution.2.2.2.2 (some 16000002)
    [⟨.fallThrough, ⟨true, false, false⟩, some 16000002⟩]
    (by decide) (by decide) (by decide) (by decide)⟩

/-- Claim C6: when `PullHeader(current)` fails in the advance step, no header
is emitted and `current`, `target` and `state` are all unchanged (whether or
not a stop signal arrived during the failure wait), so a later advance step
under the same conditions retries exactly the same height; the failure is
absorbed (the advance step has no error outcome to surface). -/
theorem fetch_failure_no_advance (bs : BlkScanner) (e e2 : ScanEnv)
    (hf : e.fetchOk = false) :
    (scanNext bs e).2 = none ∧
    (scanNext bs e).1.current = bs.current ∧
    (scanNext bs e).1.target = bs.target ∧
    (scanNext bs e).1.state = bs.state ∧
    (bs.state = .blkIsScanning → bs.current < bs.target →
      e2.fetchOk = true → e2.stopInSend = false →
      (scanNext (scanNext bs e).1 e2).2 = some bs.current) := by
  have key : (scanNext bs e).2 = none ∧ (scanNext bs e).1.current = bs.current ∧
      (scanNext bs e).1.target = bs.target ∧
      (scanNext bs e).1.state = bs.state := by
    unfold scanNext
    by_cases hg : bs.state = .blkIsScanning ∧ bs.current < bs.target
    · rw [if_pos hg, hf]
      by_cases hw : e.stopInWait
      · simp [hw]
      · simp [hw]
    · rw [if_neg hg]
      simp
  refine ⟨key.1, key.2.1, key.2.2.1, key.2.2.2, fun hs hlt hf2 hsend => ?_⟩
  have emit : ∀ b : BlkScanner, b.state = .blkIsScanning → b.current < b.target →
      (scanNext b e2).2 = some b.current := by
    intro b h1 h2
    unfold scanNext
    rw [if_pos ⟨h1, h2⟩, hf2]
    simp [hsend]
  have h1 : (scanNext bs e).1.state = .blkIsScanning := by rw [key.2.2.2, hs]
  have h2 : (scanNext bs e).1.current < (scanNext bs e).1.target := by
    rw [key.2.1, key.2.2.1]
    exact hlt
  rw [emit (scanNext bs e).1 h1 h2, key.2.1]

/-- Witness for C6: a failed fetch at height 4 (target 6) emits nothing and
changes nothing, and the following successful attempt emits height 4. -/
theorem fetch_failure_no_advance_witness :
    (scanNext ⟨.blkIsScanning, 4, 6, false⟩ ⟨false, false, false⟩).2 = none ∧
    (scanNext ⟨.blkIsScanning, 4, 6, false⟩ ⟨false, false, false⟩).1.current = 4 ∧
    (scanNext ⟨.blkIsScanning, 4, 6, false⟩ ⟨false, false, false⟩).1.target = 6 ∧
    (scanNext ⟨.blkIsScanning, 4, 6, false⟩
      ⟨false, false, false⟩).1.state = .blkIsScanning ∧
    (scanNext (scanNext ⟨.blkIsScanning, 4, 6, false⟩
      ⟨false, false, false⟩).1 ⟨true, false, false⟩).2 = some 4 :=
  have h := fetch_failure_no_advance ⟨.blkIsScanning, 4, 6, false⟩
    ⟨false, false, false⟩ ⟨true, false, false⟩ rfl
  ⟨h.1, h.2.1, h.2.2.1, h.2.2.2.1, h.2.2.2.2 rfl (by decide) rfl rfl⟩

end Svc

namespace Svc

/-- Claim C3: in the scanning state with `current > target`, after re-fetching
the target the scanner switches to idling exactly when the `uint64` difference
`diff = target - current` lies in `[0, hysteresis)`; in the idling state it
switches back to scanning exactly when `diff` is strictly greater than the
hysteresis; and when `diff` equals the hysteresis (10) neither check changes
the state, so there is no oscillation at the boundary. -/
theorem hysteresis_band (bs bsi : BlkScanner) (retop : Option Nat) :
    (bs.state = .blkIsScanning → bs.target < bs.current →
      ((checkTarget bs retop).state = .blkIsIdling ↔
        0 ≤ u64sub (top retop) bs.current ∧
        u64sub (top retop) bs.current < blkScannerHysteresis)) ∧
    (bsi.state = .blkIsIdling →
      ((checkIdle bsi).state = .blkIsScanning ↔
        blkScannerHysteresis < u64sub bsi.target bsi.current)) ∧
    (bs.state = .blkIsScanning → bs.target < bs.current →
      u64sub (top retop) bs.current = blkScannerHysteresis →
      (checkTarget bs retop).state = bs.state) ∧
    (bsi.state = .blkIsIdling →
      u64sub bsi.target bsi.current = blkScannerHysteresis →
      (checkIdle bsi).state = bsi.state) := by
  refine ⟨fun h1 h2 => ?_, fun h1 => ?_, fun h1 h2 hd => ?_, fun h1 hd => ?_⟩
  · unfold checkTarget
    rw [if_pos ⟨h1, h2⟩]
    dsimp only
    by_cases hc : 0 ≤ u64sub (top retop) bs.current ∧
        u64sub (top retop) bs.current < blkScannerHysteresis
    · rw [if_pos hc]
      simpa using hc
    · rw [if_neg hc]
      show bs.state = .blkIsIdling ↔ _
      rw [h1]
      simp only [reduceCtorEq, false_iff]
      exact hc
  · unfold checkIdle
    rw [if_neg (not_not_intro h1)]
    by_cases hc : blkScannerHysteresis < u64sub bsi.target bsi.current
    · rw [if_pos hc]
      simpa using hc
    · rw [if_neg hc]
      show bsi.state = .blkIsScanning ↔ _
      rw [h1]
      simp only [reduceCtorEq, false_iff]
      exact hc
  · unfold checkTarget
    rw [if_pos ⟨h1, h2⟩]
    dsimp only
    rw [if_neg (by rw [hd]; norm_num [blkScannerHysteresis])]
  · unfold checkIdle
    rw [if_neg (not_not_intro h1), if_neg (by rw [hd]; norm_num)]

/-- Witness for C3: with `current = 20`, a re-fetched target 22 gives
`diff = 2` (idle entry fires), an idle state with target 25 gives `diff = 5`
(no recovery; here shown with target 35, `diff = 15 > 10`, where recovery
does fire), and `diff = 10` exactly changes nothing on either side. -/
theorem hysteresis_band_witness :
    ((checkTarget ⟨.blkIsScanning, 20, 5, false⟩ (some 22)).state = .blkIsIdling ↔
      0 ≤ u64sub (top (some 22)) 20 ∧
      u64sub (top (some 22)) 20 < blkScannerHysteresis) ∧
    ((checkIdle ⟨.blkIsIdling, 20, 35, false⟩).state = .blkIsScanning ↔
      blkScannerHysteresis < u64sub 35 20) ∧
    (checkTarget ⟨.blkIsScanning, 20, 5, false⟩ (some 30)).state
      = ScannerState.blkIsScanning ∧
    (checkIdle ⟨.blkIsIdling, 20, 30, false⟩).state = ScannerState.blkIsIdling :=
  ⟨(hysteresis_band ⟨.blkIsScanning, 20, 5, false⟩ ⟨.blkIsIdling, 20, 35, false⟩
      (some 22)).1 rfl (by decide),
   (hysteresis_band ⟨.blkIsScanning, 20, 5, false⟩ ⟨.blkIsIdling, 20, 35, false⟩
      (some 22)).2.1 rfl,
   (hysteresis_band ⟨.blkIsScanning, 20, 5, false⟩ ⟨.blkIsIdling, 20, 30, false⟩
      (some 30)).2.2.1 rfl (by decide) (by decide),
   (hysteresis_band ⟨.blkIsScanning, 20, 5, false⟩ ⟨.blkIsIdling, 20, 30, false⟩
      (some 30)).2.2.2 rfl (by decide)⟩

end Svc

namespace Svc

/-- Counterexample to claim C2 as stated: with checkpoint 16,005,000 and a
head constantly reporting 16,005,003, six full iterations emit only the
heights 16,005,000..16,005,002; height 16,005,003 is never emitted (the
advance step requires `current < target`) and the scanner is still scanning
(`checkTarget` requires the strict `current > target`, which a constant head
never produces), contradicting the claimed emission of 16,005,003 and the
claimed transition to idling. -/
theorem head_reach_scenario_counterexample :
    (runLoop (initScanner (some 16005000) (some 16005003))
        (List.replicate 6
          ⟨.tickTarget (some 16005003), ⟨true, false, false⟩,
            some 16005003⟩)).emitted = [16005000, 16005001, 16005002] ∧
    16005003 ∉ (runLoop (initScanner (some 16005000) (some 16005003))
        (List.replicate 6
          ⟨.tickTarget (some 16005003), ⟨true, false, false⟩,
            some 16005003⟩)).emitted ∧
    (runLoop (initScanner (some 16005000) (some 16005003))
        (List.replicate 6
          ⟨.tickTarget (some 16005003), ⟨true, false, false⟩,
            some 16005003⟩)).finalState.state = .blkIsScanning := by
  decide

/-- Claim C2 (amended): with checkpoint 16,005,000, a head constantly
reporting 16,005,003 and hysteresis 10, the scanner emits exactly the heights
16,005,000 through 16,005,002; after that `current = target = 16,005,003` and
for any further iterations under the constant head it stays in the scanning
state with `current` pinned at 16,005,003, emitting nothing and never
transitioning to idling (idling would require `current > target`). -/
theorem head_reach_scenario_amended (es : List IterEnv)
    (h : ∀ e ∈ es, constHeadEnv 16005003 e = true) :
    (runLoop (initScanner (some 16005000) (some 16005003))
        (List.replicate 3
            ⟨.tickTarget (some 16005003), ⟨true, false, false⟩, some 16005003⟩
          ++ es)).emitted = [16005000, 16005001, 16005002] ∧
    (runLoop (initScanner (some 16005000) (some 16005003))
        (List.replicate 3
            ⟨.tickTarget (some 16005003), ⟨true, false, false⟩, some 16005003⟩
          ++ es)).finalState.state = .blkIsScanning ∧
    (runLoop (initScanner (some 16005000) (some 16005003))
        (List.replicate 3
            ⟨.tickTarget (some 16005003), ⟨true, false, false⟩, some 16005003⟩
          ++ es)).finalState.current = 16005003 ∧
    (runLoop (initScanner (some 16005000) (some 16005003))
        (List.replicate 3
            ⟨.tickTarget (some 16005003), ⟨true, false, false⟩, some 16005003⟩
          ++ es)).terminated = false := by
  have hpre : runLoop (initScanner (some 16005000) (some 16005003))
      (List.replicate 3
        ⟨.tickTarget (some 16005003), ⟨true, false, false⟩, some 16005003⟩)
      = { emitted := [16005000, 16005001, 16005002], closedCalls := 0,
          finalState := ⟨.blkIsScanning, 16005003, 16005003, false⟩,
          terminated := false } := by decide
  rw [runLoop_append, hpre]
  rw [runLoop_steady 16005003 false es h]
  simp

/-- Witness for the amended C2: one extra constant-head iteration after the
three productive ones changes nothing. -/
theorem head_reach_scenario_amended_witness :
    (runLoop (initScanner (some 16005000) (some 16005003))
        (List.replicate 3
            ⟨.tickTarget (some 16005003), ⟨true, false, false⟩, some 16005003⟩
          ++ [⟨.logTick, ⟨true, false, false⟩, some 16005003⟩])).emitted
        = [16005000, 16005001, 16005002] ∧
    (runLoop (initScanner (some 16005000) (some 16005003))
        (List.replicate 3
            ⟨.tickTarget (some 16005003), ⟨true, false, false⟩, some 16005003⟩
          ++ [⟨.logTick, ⟨true, false, false⟩, some 16005003⟩])).finalState.state
        = .blkIsScanning ∧
    (runLoop (initScanner (some 16005000) (some 16005003))
        (List.replicate 3
            ⟨.tickTarget (some 16005003), ⟨true, false, false⟩, some 16005003⟩
          ++ [⟨.logTick, ⟨true, false, false⟩, some 16005003⟩])).finalState.current
        = 16005003 ∧
    (runLoop (initScanner (some 16005000) (some 16005003))
        (List.replicate 3
            ⟨.tickTarget (some 16005003), ⟨true, false, false⟩, some 16005003⟩
          ++ [⟨.logTick, ⟨true, false, false⟩, some 16005003⟩])).terminated
        = false :=
  head_reach_scenario_amended
    [⟨.logTick, ⟨true, false, false⟩, some 16005003⟩] (by decide)

/-- Claim C9 (amended): `diff` is computed by unsigned 64-bit subtraction, so
for `target < current` it wraps to `2 ^ 64 - (current - target)`; whenever
`current - target < 2 ^ 64 - hysteresis` (every realistic pair of block
heights) the wrapped value exceeds the hysteresis, hence `checkTarget` never
transitions to idling when the re-fetched target is below `current` (its
`diff >= 0` guard being vacuous) and `checkIdle` flips idling back to
scanning whenever `target < current` — in particular when a failed
`CurrentHead` call made `top` return 0 while `current` is positive.  For
`current - target ≥ 2 ^ 64 - hysteresis` the wrap lands inside the band and
the opposite behaviour occurs (see the counterexample). -/
theorem wrapped_diff_guard :
    (∀ t c : Nat, t < c → c < u64Mod → u64sub t c = u64Mod - (c - t)) ∧
    (∀ bs : BlkScanner, ∀ newTop : Option Nat, bs.state = .blkIsScanning →
      bs.target < bs.current → bs.current < u64Mod →
      top newTop < bs.current →
      bs.current - top newTop < u64Mod - blkScannerHysteresis →
      (checkTarget bs newTop).state = .blkIsScanning) ∧
    (∀ bs : BlkScanner, bs.state = .blkIsIdling → bs.target < bs.current →
      bs.current < u64Mod →
      bs.current - bs.target < u64Mod - blkScannerHysteresis →
      (checkIdle bs).state = .blkIsScanning) := by
  refine ⟨fun t c h1 h2 => u64sub_of_lt t c h1 h2,
    fun bs newTop h1 h2 h3 h4 h5 => ?_, fun bs h1 h2 h3 h4 => ?_⟩
  · have hd : blkScannerHysteresis < u64sub (top newTop) bs.current := by
      rw [u64sub_of_lt (top newTop) bs.current h4 h3]
      unfold blkScannerHysteresis at h5 ⊢
      omega
    unfold checkTarget
    rw [if_pos ⟨h1, h2⟩]
    dsimp only
    rw [if_neg (fun hcon => absurd hd (by omega))]
    exact h1
  · have hd : blkScannerHysteresis < u64sub bs.target bs.current := by
      rw [u64sub_of_lt bs.target bs.current h2 h3]
      unfold blkScannerHysteresis at h4 ⊢
      omega
    unfold checkIdle
    rw [if_neg (not_not_intro h1), if_pos hd]

/-- Witness for the amended C9: a scanner at height 1000 whose re-fetched
target dropped to 0 (a failed `CurrentHead`) keeps scanning in `checkTarget`,
and an idling scanner in the same position resumes scanning in `checkIdle`. -/
theorem wrapped_diff_guard_witness :
    u64sub 0 1000 = u64Mod - 1000 ∧
    (checkTarget ⟨.blkIsScanning, 1000, 40, false⟩ none).state
      = .blkIsScanning ∧
    (checkIdle ⟨.blkIsIdling, 1000, 0, false⟩).state = .blkIsScanning :=
  ⟨by
      have hx := wrapped_diff_guard.1 0 1000 (by norm_num)
        (by norm_num [u64Mod])
      simpa using hx,
    wrapped_diff_guard.2.1 ⟨.blkIsScanning, 1000, 40, false⟩ none rfl
      (by norm_num) (by norm_num [u64Mod]) (by norm_num [top])
      (by norm_num [top, u64Mod, blkScannerHysteresis]),
    wrapped_diff_guard.2.2 ⟨.blkIsIdling, 1000, 0, false⟩ rfl
      (by norm_num) (by norm_num [u64Mod])
      (by norm_num [u64Mod, blkScannerHysteresis])⟩

/-- Counterexample to claim C9 as stated: near the top of the `uint64` range
the wrapped difference is small.  With `current = 2 ^ 64 - 5`, old target 3
and a re-fetched target 0 (all below `current`), `diff` wraps to 5, which IS
inside `[0, hysteresis)`: `checkTarget` transitions to idling although the
re-fetched target is below `current`, and `checkIdle` with `target = 0 <
current` does NOT flip back to scanning — both directions of the claim's
universal statement fail. -/
theorem wrapped_diff_guard_counterexample :
    top (some 0) < u64Mod - 5 ∧ (3 : Nat) < u64Mod - 5 ∧
    u64sub (top (some 0)) (u64Mod - 5) = 5 ∧
    (checkTarget ⟨.blkIsScanning, u64Mod - 5, 3, false⟩ (some 0)).state
      = .blkIsIdling ∧
    (0 : Nat) < u64Mod - 5 ∧
    (checkIdle ⟨.blkIsIdling, u64Mod - 5, 0, false⟩).state = .blkIsIdling := by
  decide

end Svc

namespace Svc

/-- The deferred manager-closure callback runs exactly once when the loop
terminates and not at all while it is still running. -/
theorem runLoop_closedCalls (bs : BlkScanner) (es : List IterEnv) :
    (runLoop bs es).closedCalls
      = if (runLoop bs es).terminated then 1 else 0 := by
  induction es generalizing bs with
  | nil => rfl
  | cons e es ih =>
    by_cases hstop : e.branch = .stopSig
    · simp [runLoop, hstop]
    · simp only [runLoop, if_neg hstop]
      exact ih (iterStep bs e).1

/-- Claim C7 (amended): a stop signal consumed inside the advance step —
during the post-fetch-failure wait or while blocked enqueueing — is re-armed
(the slot holds a value again) and that advance step emits no header and does
not move `current`; and for every run, the manager-closure callback runs
exactly once if the loop terminated through the loop-top stop branch and
never otherwise.  The original claim's "terminates without emitting any
further header" does not hold unconditionally: between the re-arm and the
loop-top stop check the `select` may legally serve other ready branches, and
a successful enqueue there still emits a header (see the counterexample); it
holds exactly when the loop-top stop branch is taken before another
successful enqueue. -/
theorem stop_rearm_behavior (bs : BlkScanner) (e : ScanEnv)
    (es : List IterEnv) :
    (bs.state = .blkIsScanning → bs.current < bs.target → e.fetchOk = true →
      e.stopInSend = true →
      (scanNext bs e).2 = none ∧ (scanNext bs e).1.stopArmed = true ∧
      (scanNext bs e).1.current = bs.current) ∧
    (bs.state = .blkIsScanning → bs.current < bs.target → e.fetchOk = false →
      e.stopInWait = true →
      (scanNext bs e).2 = none ∧ (scanNext bs e).1.stopArmed = true ∧
      (scanNext bs e).1.current = bs.current) ∧
    ((runLoop bs es).closedCalls
      = if (runLoop bs es).terminated then 1 else 0) := by
  refine ⟨fun h1 h2 h3 h4 => ?_, fun h1 h2 h3 h4 => ?_,
    runLoop_closedCalls bs es⟩
  · unfold scanNext
    rw [if_pos ⟨h1, h2⟩, h3, h4]
    simp
  · unfold scanNext
    rw [if_pos ⟨h1, h2⟩, h3, h4]
    simp

/-- Witness for the amended C7: a stop arriving during the blocked enqueue at
height 16,005,000 re-arms the slot and emits nothing, and a run that then
takes the loop-top stop branch invokes the closure callback exactly once. -/
theorem stop_rearm_behavior_witness :
    ((scanNext ⟨.blkIsScanning, 16005000, 16005100, false⟩
        ⟨true, false, true⟩).2 = none ∧
      (scanNext ⟨.blkIsScanning, 16005000, 16005100, false⟩
        ⟨true, false, true⟩).1.stopArmed = true ∧
      (scanNext ⟨.blkIsScanning, 16005000, 16005100, false⟩
        ⟨true, false, true⟩).1.current = 16005000) ∧
    ((scanNext ⟨.blkIsScanning, 16005000, 16005100, false⟩
        ⟨false, true, false⟩).2 = none ∧
      (scanNext ⟨.blkIsScanning, 16005000, 16005100, false⟩
        ⟨false, true, false⟩).1.stopArmed = true ∧
      (scanNext ⟨.blkIsScanning, 16005000, 16005100, false⟩
        ⟨false, true, false⟩).1.current = 16005000) ∧
    ((runLoop ⟨.blkIsScanning, 16005000, 16005100, false⟩
        [⟨.stopSig, ⟨true, false, false⟩, some 16005100⟩]).closedCalls
      = if (runLoop ⟨.blkIsScanning, 16005000, 16005100, false⟩
          [⟨.stopSig, ⟨true, false, false⟩, some 16005100⟩]).terminated
        then 1 else 0) :=
  ⟨(stop_rearm_behavior ⟨.blkIsScanning, 16005000, 16005100, false⟩
      ⟨true, false, true⟩
      [⟨.stopSig, ⟨true, false, false⟩, some 16005100⟩]).1
      rfl (by decide) rfl rfl,
   (stop_rearm_behavior ⟨.blkIsScanning, 16005000, 16005100, false⟩
      ⟨false, true, false⟩
      [⟨.stopSig, ⟨true, false, false⟩, some 16005100⟩]).2.1
      rfl (by decide) rfl rfl,
   (stop_rearm_behavior ⟨.blkIsScanning, 16005000, 16005100, false⟩
      ⟨true, false, true⟩
      [⟨.stopSig, ⟨true, false, false⟩, some 16005100⟩]).2.2⟩

/-- Counterexample to claim C7 as stated: the stop signal is sent exactly
once, during the blocked enqueue of iteration 1 (which therefore emits
nothing and re-arms the slot).  In iteration 2 the loop-top `select` has both
the 2-second ticker and the re-armed stop ready and may legally serve the
ticker (Go chooses uniformly among ready cases); the advance step then
races the enqueue against the armed stop and may legally enqueue — emitting
header 16,005,000 AFTER the stop was sent.  Iteration 3 terminates.  So the
run terminates and the closure callback runs once, but a further header was
emitted, contrary to the claim. -/
theorem stop_rearm_counterexample :
    (iterStep (initScanner (some 16005000) (some 16005100))
        ⟨.fallThrough, ⟨true, false, true⟩, some 16005100⟩).2 = none ∧
    (iterStep (initScanner (some 16005000) (some 16005100))
        ⟨.fallThrough, ⟨true, false, true⟩, some 16005100⟩).1.stopArmed
      = true ∧
    (runLoop (initScanner (some 16005000) (some 16005100))
        [⟨.fallThrough, ⟨true, false, true⟩, some 16005100⟩,
         ⟨.tickTarget (some 16005100), ⟨true, false, false⟩, some 16005100⟩,
         ⟨.stopSig, ⟨true, false, false⟩, some 16005100⟩]).terminated = true ∧
    (runLoop (initScanner (some 16005000) (some 16005100))
        [⟨.fallThrough, ⟨true, false, true⟩, some 16005100⟩,
         ⟨.tickTarget (some 16005100), ⟨true, false, false⟩, some 16005100⟩,
         ⟨.stopSig, ⟨true, false, false⟩, some 16005100⟩]).closedCalls = 1 ∧
    (runLoop (initScanner (some 16005000) (some 16005100))
        [⟨.fallThrough, ⟨true, false, true⟩, some 16005100⟩,
         ⟨.tickTarget (some 16005100), ⟨true, false, false⟩, some 16005100⟩,
         ⟨.stopSig, ⟨true, false, false⟩, some 16005100⟩]).emitted
      = [16005000] := by
  decide

end Svc

namespace Repo

/-- Claim C10 (code defect): `MustTokenName` is not total over all lookup
outcomes.  It does return the token-id string on a lookup error and on an
empty stored name, and the stored name otherwise — but when the lookup
succeeds and finds no token (`Proxy.Token` returns Go's `(nil, nil)`, the
explicit not-found path of the source) the subsequent `t.Name` read
dereferences a nil pointer and the function panics instead of returning the
token-id string its own documentation promises. -/
theorem mustTokenName_not_total :
    Proxy.MustTokenName (.ok none) "0x2a" = none ∧
    Proxy.Token (Except.ok none) = .ok none ∧
    Proxy.MustTokenName (.error "db out of sync") "0x2a" = some "0x2a" ∧
    Proxy.MustTokenName (.ok (some ⟨""⟩)) "0x2a" = some "0x2a" ∧
    Proxy.MustTokenName (.ok (some ⟨"CoolCat 42"⟩)) "0x2a"
      = some "CoolCat 42" := by
  refine ⟨rfl, rfl, rfl, by decide, by decide⟩

end Repo
